import Mathlib

/-!
Shallow embedding of the SigNoz preference resolution and validation engine
(`pkg/query-service/app/preferences/model.go`).

Modelling conventions:
* A Go `interface{}` value that can flow through the preference API is one of
  the closed set of JSON-style scalars the validator inspects: `int64`,
  `float64`, `string`, `bool`.  `float64` is embedded as `ℚ` (every concrete
  float of interest, e.g. `4.0`, is an exact rational; the only operation the
  code performs on a float is the trunc-and-compare integrality test).
* Go interface equality (`==`) on these scalars compares dynamic type and
  value; it is `DecidableEq` on the `Value` inductive.
* A Go slice field distinguishes `nil` from an empty non-nil slice, so
  `AllowedValues` and `AllowedScopes` are `Option (List _)` with `none`
  standing for the `nil` slice.
* The SQLite tables keyed by `(preference_id, org_id)` resp.
  `(preference_id, user_id)` are, for one fixed org/user, a partial map from
  preference id to stored value: `Store := String → Option Value`.  I/O
  failures of the external store are outside the model (the store is total);
  `sql.ErrNoRows` is `none`.
* `model.ApiError` values are embedded as an inductive carrying the data the
  error message reports (expected type, min/max, allowed set, scope).
-/

namespace Preferences

/-- Runtime value of a preference (the dynamic types the Go code inspects). -/
inductive Value where
  | vInt (n : Int)
  | vFloat (q : ℚ)
  | vString (s : String)
  | vBool (b : Bool)
  deriving DecidableEq

/-- Embedded `model.ApiError`, refined by the data each error reports. -/
inductive ApiError where
  | notFound (preferenceId : String)
  | forbidden (scope : String) (preferenceId : String)
  | typeMismatch (expected : String)
  | rangeError (min max : Int)
  | domainError (allowed : List Value)
  deriving DecidableEq

/-- The `Range` struct of `model.go` (min/max are Go `int64`). -/
structure RangeSpec where
  Min : Int
  Max : Int
  deriving DecidableEq

/-- The `Preference` struct of `model.go`.  `none` models a `nil` Go slice. -/
structure Preference where
  Key : String
  Name : String
  Description : String
  ValueType : String
  DefaultValue : Value
  AllowedValues : Option (List Value)
  IsDescreteValues : Bool
  Range : RangeSpec
  AllowedScopes : Option (List String)
  deriving DecidableEq

/-- The `PreferenceKV` struct of `model.go`. -/
structure PreferenceKV where
  PreferenceId : String
  PreferenceValue : Value
  deriving DecidableEq

/-- The `AllPreferences` view struct of `model.go` (`Value` field last so the
field name does not shadow the `Value` type in the remaining fields). -/
structure AllPreferences where
  Key : String
  Name : String
  Description : String
  ValueType : String
  DefaultValue : Value
  IsDescreteValues : Bool
  AllowedValues : Option (List Value)
  Range : RangeSpec
  AllowedScopes : Option (List String)
  Value : Value
  deriving DecidableEq

abbrev PreferenceValueTypeInteger : String := "integer"
abbrev PreferenceValueTypeFloat : String := "float"
abbrev PreferenceValueTypeString : String := "string"
abbrev PreferenceValueTypeBoolean : String := "boolean"

abbrev OrgAllowedScope : String := "org"
abbrev UserAllowedScope : String := "user"

/-- The error built by `Preference.ErrorValueTypeMismatch`, which names the
expected value type in its message. -/
def ErrorValueTypeMismatch (p : Preference) : ApiError :=
  ApiError.typeMismatch p.ValueType

/-- Truncation toward zero of a rational, embedding Go `int64(floatVal)`. -/
def ratTrunc (q : ℚ) : Int :=
  q.num.sign * (q.num.natAbs / q.den : Nat)

/-- The integer-extraction step at the top of the `integer` case of
`IsValidValue`: a Go `int64` is taken as is; a `float64` passes the
trunc-and-compare test `floatVal == float64(int64(floatVal))` and is coerced;
anything else is a type mismatch (`none`). -/
def coerceInt (v : Value) : Option Int :=
  match v with
  | Value.vInt n => some n
  | Value.vFloat q => if ((ratTrunc q : ℚ) = q) then some (ratTrunc q) else none
  | _ => none

/-- Embeds `checkIfInAllowedValues` of `model.go`: linear scan with Go interface
equality; ranging over a `nil` slice does zero iterations. -/
def checkIfInAllowedValues (preferenceValue : Value) (p : Preference) : Bool :=
  match p.AllowedValues with
  | none => false
  | some allowed => allowed.any (fun value => decide (value = preferenceValue))

/-- The `switch p.ValueType` stage of `Preference.IsValidValue` (lines 60-90 of
`model.go`), including the integer-only range check that lives inside the
`integer` case. -/
def typeCheck (p : Preference) (v : Value) : Option ApiError :=
  if p.ValueType = PreferenceValueTypeInteger then
    match coerceInt v with
    | none => some (ErrorValueTypeMismatch p)
    | some val =>
      if p.IsDescreteValues = false then
        if val < p.Range.Min ∨ val > p.Range.Max then
          some (ApiError.rangeError p.Range.Min p.Range.Max)
        else none
      else none
  else if p.ValueType = PreferenceValueTypeString then
    match v with
    | Value.vString _ => none
    | _ => some (ErrorValueTypeMismatch p)
  else if p.ValueType = PreferenceValueTypeFloat then
    match v with
    | Value.vFloat _ => none
    | _ => some (ErrorValueTypeMismatch p)
  else if p.ValueType = PreferenceValueTypeBoolean then
    match v with
    | Value.vBool _ => none
    | _ => some (ErrorValueTypeMismatch p)
  else none

/-- Embeds `Preference.IsValidValue` of `model.go`: the type switch (with its early
returns), then the discrete allowed-values check guarded by
`p.IsDescreteValues` and `p.AllowedValues != nil`.  Note the discrete check
receives the original, uncoerced candidate. -/
def IsValidValue (p : Preference) (v : Value) : Option ApiError :=
  match typeCheck p v with
  | some e => some e
  | none =>
    if p.IsDescreteValues then
      match p.AllowedValues with
      | some allowed =>
        if checkIfInAllowedValues v p then none
        else some (ApiError.domainError allowed)
      | none => none
    else none

/-- Embeds `Preference.IsEnabledForScope` of `model.go`. -/
def IsEnabledForScope (p : Preference) (scope : String) : Bool :=
  match p.AllowedScopes with
  | none => false
  | some scopes => scopes.any (fun allowedScope => decide (allowedScope = scope))

/-- Embeds `Preference.SanitizeValue` of `model.go`: for boolean-typed preferences,
Go interface comparison of the value with the string literal `"1"`; any other
value (including an actual boolean) yields `false`.  Other types pass
through. -/
def SanitizeValue (p : Preference) (preferenceValue : Value) : Value :=
  if p.ValueType = PreferenceValueTypeBoolean then
    if preferenceValue = Value.vString "1" then Value.vBool true
    else Value.vBool false
  else preferenceValue

/-- A preference table restricted to one org (resp. one user): stored value
per preference id; `none` is `sql.ErrNoRows`. -/
def Store : Type := String → Option Value

/-- The `INSERT ... ON CONFLICT DO UPDATE` upsert of `model.go`. -/
def upsert (store : Store) (preferenceId : String) (v : Value) : Store :=
  fun k => if k = preferenceId then some v else store k

/-- Lookup in the registry `preferenceMap` built by `InitDB` (which rejects
duplicate keys, so a first-match scan of the definition list agrees with the
Go map). -/
def findPreference (defs : List Preference) (preferenceId : String) :
    Option Preference :=
  defs.find? (fun p => decide (p.Key = preferenceId))

/-- Embeds `GetOrgPreference` of `model.go`: registry lookup, org-scope gate, then
the stored value sanitized — or the raw default when no row exists. -/
def GetOrgPreference (defs : List Preference) (orgStore : Store)
    (preferenceId : String) : Except ApiError PreferenceKV :=
  match findPreference defs preferenceId with
  | none => Except.error (ApiError.notFound preferenceId)
  | some preference =>
    if IsEnabledForScope preference OrgAllowedScope then
      match orgStore preferenceId with
      | none => Except.ok ⟨preferenceId, preference.DefaultValue⟩
      | some stored => Except.ok ⟨preferenceId, SanitizeValue preference stored⟩
    else Except.error (ApiError.forbidden OrgAllowedScope preferenceId)

/-- Embeds `UpdateOrgPreference` of `model.go`.  The pair carries the resulting org
store so that absence of a write is expressible; every error branch returns
the store unchanged, the success branch upserts the original candidate. -/
def UpdateOrgPreference (defs : List Preference) (orgStore : Store)
    (preferenceId : String) (preferenceValue : Value) :
    Except ApiError PreferenceKV × Store :=
  match findPreference defs preferenceId with
  | none => (Except.error (ApiError.notFound preferenceId), orgStore)
  | some preference =>
    if IsEnabledForScope preference OrgAllowedScope then
      match IsValidValue preference preferenceValue with
      | some e => (Except.error e, orgStore)
      | none =>
        (Except.ok ⟨preferenceId, preferenceValue⟩,
         upsert orgStore preferenceId preferenceValue)
    else (Except.error (ApiError.forbidden OrgAllowedScope preferenceId), orgStore)

/-- Embeds `GetUserPreference` of `model.go`: default, overridden by the org row when
the preference is org-enabled and a row exists, overridden by the user row
when one exists; the selected value is sanitized. -/
def GetUserPreference (defs : List Preference) (orgStore userStore : Store)
    (preferenceId : String) : Except ApiError PreferenceKV :=
  match findPreference defs preferenceId with
  | none => Except.error (ApiError.notFound preferenceId)
  | some preference =>
    if IsEnabledForScope preference UserAllowedScope then
      let afterOrg :=
        if IsEnabledForScope preference OrgAllowedScope then
          match orgStore preferenceId with
          | some stored => stored
          | none => preference.DefaultValue
        else preference.DefaultValue
      let afterUser :=
        match userStore preferenceId with
        | some stored => stored
        | none => afterOrg
      Except.ok ⟨preferenceId, SanitizeValue preference afterUser⟩
    else Except.error (ApiError.forbidden UserAllowedScope preferenceId)

/-- Embeds `UpdateUserPreference` of `model.go`, with the resulting user store. -/
def UpdateUserPreference (defs : List Preference) (userStore : Store)
    (preferenceId : String) (preferenceValue : Value) :
    Except ApiError PreferenceKV × Store :=
  match findPreference defs preferenceId with
  | none => (Except.error (ApiError.notFound preferenceId), userStore)
  | some preference =>
    if IsEnabledForScope preference UserAllowedScope then
      match IsValidValue preference preferenceValue with
      | some e => (Except.error e, userStore)
      | none =>
        (Except.ok ⟨preferenceId, preferenceValue⟩,
         upsert userStore preferenceId preferenceValue)
    else (Except.error (ApiError.forbidden UserAllowedScope preferenceId), userStore)

/-- The view row built for one org-enabled definition inside the loop of
`GetAllOrgPreferences`: org row if present else default, then sanitized. -/
def orgView (orgStore : Store) (p : Preference) : AllPreferences :=
  { Key := p.Key, Name := p.Name, Description := p.Description,
    ValueType := p.ValueType, DefaultValue := p.DefaultValue,
    IsDescreteValues := p.IsDescreteValues, AllowedValues := p.AllowedValues,
    Range := p.Range, AllowedScopes := p.AllowedScopes,
    Value := SanitizeValue p
      (match orgStore p.Key with
       | some stored => stored
       | none => p.DefaultValue) }

/-- Embeds `GetAllOrgPreferences` of `model.go`: one row appended per org-enabled
definition, in registry order; other definitions are skipped. -/
def GetAllOrgPreferences (defs : List Preference) (orgStore : Store) :
    List AllPreferences :=
  (defs.filter (fun p => IsEnabledForScope p OrgAllowedScope)).map
    (orgView orgStore)

/-- The view row built for one user-enabled definition inside the loop of
`GetAllUserPreferences`: default, org override when org-enabled and a row
exists, user override when a row exists, then sanitized. -/
def userView (orgStore userStore : Store) (p : Preference) : AllPreferences :=
  { Key := p.Key, Name := p.Name, Description := p.Description,
    ValueType := p.ValueType, DefaultValue := p.DefaultValue,
    IsDescreteValues := p.IsDescreteValues, AllowedValues := p.AllowedValues,
    Range := p.Range, AllowedScopes := p.AllowedScopes,
    Value :=
      let afterOrg :=
        if IsEnabledForScope p OrgAllowedScope then
          match orgStore p.Key with
          | some stored => stored
          | none => p.DefaultValue
        else p.DefaultValue
      let afterUser :=
        match userStore p.Key with
        | some stored => stored
        | none => afterOrg
      SanitizeValue p afterUser }

/-- Embeds `GetAllUserPreferences` of `model.go`: one row appended per user-enabled
definition, in registry order; other definitions are skipped. -/
def GetAllUserPreferences (defs : List Preference) (orgStore userStore : Store) :
    List AllPreferences :=
  (defs.filter (fun p => IsEnabledForScope p UserAllowedScope)).map
    (userView orgStore userStore)

/-! Basic facts about the float-to-integer coercion. -/

theorem ratTrunc_intCast (n : Int) : ratTrunc (n : ℚ) = n := by
  simp [ratTrunc, Rat.num_intCast, Rat.den_intCast, Int.sign_mul_abs]

theorem ratTrunc_cast_eq_iff (q : ℚ) : ((ratTrunc q : ℚ) = q) ↔ q.den = 1 := by
  constructor
  · intro h
    exact h ▸ Rat.den_intCast (ratTrunc q)
  · intro h
    have hq : (q.num : ℚ) = q := (Rat.den_eq_one_iff q).mp h
    have ht : ratTrunc q = q.num := by
      simp [ratTrunc, h, Int.sign_mul_abs]
    rw [ht]
    exact hq

theorem ratTrunc_eq_num (q : ℚ) (h : q.den = 1) : ratTrunc q = q.num := by
  simp [ratTrunc, h, Int.sign_mul_abs]

theorem coerceInt_vFloat (q : ℚ) :
    coerceInt (Value.vFloat q) = if q.den = 1 then some q.num else none := by
  by_cases h : q.den = 1
  · simp [coerceInt, ratTrunc_cast_eq_iff, h, ratTrunc_eq_num q h,
      (Rat.den_eq_one_iff q).mp h]
  · simp [coerceInt, ratTrunc_cast_eq_iff, h]

/-! Registry lookup facts. -/

theorem findPreference_self (defs : List Preference) (p : Preference)
    (hN : (defs.map Preference.Key).Nodup) (hp : p ∈ defs) :
    findPreference defs p.Key = some p := by
  induction defs with
  | nil => cases hp
  | cons a t ih =>
    rcases List.mem_cons.mp hp with h | h
    · subst h
      simp [findPreference, List.find?]
    · have hN' := (List.nodup_cons.mp hN)
      have hne : a.Key ≠ p.Key := by
        intro hkey
        exact hN'.1 (hkey ▸ List.mem_map_of_mem Preference.Key h)
      have := ih hN'.2 h
      simpa [findPreference, List.find?, hne] using this

/-! Concrete preference definitions used as witness and counterexample
inputs. -/

/-- The store with no rows at all. -/
def emptyStore : Store := fun _ => none

/-- An integer preference with range domain, enabled at both scopes (the
MAX_ALERTS example of the spec, additionally user-enabled). -/
def rangePref : Preference :=
  ⟨"MAX_ALERTS", "", "", PreferenceValueTypeInteger, Value.vInt 10,
    none, false, ⟨1, 100⟩, some [OrgAllowedScope, UserAllowedScope]⟩

/-- A boolean user-scope preference whose default is `true`. -/
def boolUserPref : Preference :=
  ⟨"WELCOME_DONE", "", "", PreferenceValueTypeBoolean, Value.vBool true,
    none, false, ⟨0, 0⟩, some [UserAllowedScope]⟩

/-- A boolean org-scope preference whose default is `true`. -/
def boolOrgPref : Preference :=
  ⟨"ORG_ONBOARD", "", "", PreferenceValueTypeBoolean, Value.vBool true,
    none, false, ⟨0, 0⟩, some [OrgAllowedScope]⟩

/-- A discrete integer preference whose allowed set holds the Go `int64` 4. -/
def discreteIntPref : Preference :=
  ⟨"SAMPLE_RATE", "", "", PreferenceValueTypeInteger, Value.vInt 4,
    some [Value.vInt 4], true, ⟨0, 0⟩, some [OrgAllowedScope]⟩

/-- A discrete string preference with a present-but-empty allowed list (a
non-nil empty Go slice). -/
def emptyAllowedPref : Preference :=
  ⟨"THEME", "", "", PreferenceValueTypeString, Value.vString "dark",
    some [], true, ⟨0, 0⟩, some [OrgAllowedScope]⟩

/-- A discrete string preference with a non-empty allowed list. -/
def discreteStringPref : Preference :=
  ⟨"LAYOUT", "", "", PreferenceValueTypeString, Value.vString "wide",
    some [Value.vString "wide", Value.vString "narrow"], true, ⟨0, 0⟩,
    some [OrgAllowedScope, UserAllowedScope]⟩

/-- A float preference without discrete values, enabled at both scopes. -/
def floatPref : Preference :=
  ⟨"RATE_LIMIT", "", "", PreferenceValueTypeFloat, Value.vFloat 1,
    none, false, ⟨0, 0⟩, some [OrgAllowedScope, UserAllowedScope]⟩

/-- A preference whose value type is none of the four known types. -/
def unknownTypePref : Preference :=
  ⟨"EXTRA_META", "", "", "json", Value.vString "x",
    none, false, ⟨0, 0⟩, some [OrgAllowedScope]⟩

/-- C1: for every preference definition enabled at both user and org scope,
`GetUserPreference` resolves with strict precedence user over org over
default — the user row's value if one exists, otherwise the org row's value if
one exists, otherwise the default — and the selected value is passed through
`SanitizeValue` before being returned. -/
theorem c1_user_precedence (defs : List Preference) (p : Preference)
    (orgStore userStore : Store)
    (hFind : findPreference defs p.Key = some p)
    (hU : IsEnabledForScope p UserAllowedScope = true)
    (hO : IsEnabledForScope p OrgAllowedScope = true) :
    GetUserPreference defs orgStore userStore p.Key =
      Except.ok ⟨p.Key, SanitizeValue p
        ((userStore p.Key).getD ((orgStore p.Key).getD p.DefaultValue))⟩ := by
  unfold GetUserPreference
  rw [hFind]
  simp only [hU, hO, if_true]
  cases userStore p.Key <;> cases orgStore p.Key <;> simp

/-- Witness for C1: `rangePref` with an org row `30` and a user row `40`
resolves to the user row's value. -/
theorem c1_user_precedence_witness :
    GetUserPreference [rangePref] (fun _ => some (Value.vInt 30))
        (fun _ => some (Value.vInt 40)) rangePref.Key =
      Except.ok ⟨rangePref.Key, SanitizeValue rangePref
        ((some (Value.vInt 40)).getD
          ((some (Value.vInt 30)).getD rangePref.DefaultValue))⟩ :=
  c1_user_precedence [rangePref] rangePref
    (fun _ => some (Value.vInt 30)) (fun _ => some (Value.vInt 40))
    (by decide) (by decide) (by decide)

/-- C2 counterexample: with no stored rows at all, `GetUserPreference` on a
boolean-typed user-scope preference whose default is `true` returns `false`
(the default is sanitized on the way out), not the default value claimed. -/
theorem c2_counterexample :
    GetUserPreference [boolUserPref] emptyStore emptyStore "WELCOME_DONE" =
        Except.ok ⟨"WELCOME_DONE", Value.vBool false⟩ ∧
      boolUserPref.DefaultValue = Value.vBool true :=
  ⟨rfl, rfl⟩

/-- C2 amended: with no stored rows, `GetOrgPreference` returns exactly the
default value, while `GetUserPreference` returns the default passed through
`SanitizeValue`; the two notions agree on every definition that is not
boolean-typed. -/
theorem c2_amended (defs : List Preference) (p : Preference)
    (hFind : findPreference defs p.Key = some p) :
    (IsEnabledForScope p OrgAllowedScope = true →
      GetOrgPreference defs emptyStore p.Key =
        Except.ok ⟨p.Key, p.DefaultValue⟩) ∧
    (IsEnabledForScope p UserAllowedScope = true →
      GetUserPreference defs emptyStore emptyStore p.Key =
        Except.ok ⟨p.Key, SanitizeValue p p.DefaultValue⟩) ∧
    (p.ValueType ≠ PreferenceValueTypeBoolean →
      SanitizeValue p p.DefaultValue = p.DefaultValue) := by
  refine ⟨?_, ?_, ?_⟩
  · intro hO
    unfold GetOrgPreference
    rw [hFind]
    simp [hO, emptyStore]
  · intro hU
    unfold GetUserPreference
    rw [hFind]
    simp [hU, emptyStore]
  · intro hB
    simp [SanitizeValue, hB]

/-- Witness for C2 amended at `rangePref` (org- and user-enabled). -/
theorem c2_amended_witness :
    GetOrgPreference [rangePref] emptyStore rangePref.Key =
        Except.ok ⟨rangePref.Key, rangePref.DefaultValue⟩ ∧
      GetUserPreference [rangePref] emptyStore emptyStore rangePref.Key =
        Except.ok ⟨rangePref.Key, SanitizeValue rangePref rangePref.DefaultValue⟩ :=
  ⟨(c2_amended [rangePref] rangePref (by decide)).1 (by decide),
   (c2_amended [rangePref] rangePref (by decide)).2.1 (by decide)⟩

/-- C3 counterexample: the integral float `4.0` is not treated as the integer
`4` everywhere.  For a discrete integer preference whose allowed set holds the
Go `int64` value `4`, the candidate `4.0` passes the type stage but fails the
discrete domain check (which compares the original, uncoerced value by
interface equality), and a successfully updated value is stored and returned
as the original `4.0`, not as the integer `4`. -/
theorem c3_counterexample :
    IsValidValue discreteIntPref (Value.vFloat 4) =
        some (ApiError.domainError [Value.vInt 4]) ∧
      (UpdateOrgPreference [rangePref] emptyStore "MAX_ALERTS"
          (Value.vFloat 4)).1 =
        Except.ok ⟨"MAX_ALERTS", Value.vFloat 4⟩ :=
  ⟨by decide, rfl⟩

/-- C3 amended: for an integer-typed preference, a float candidate passes the
type stage exactly when it has no fractional part, and the coerced integer is
used for the range check only; the discrete domain check compares the
original uncoerced candidate by interface equality, and the value accepted by
the set operation is the original candidate, not the coerced integer.  Any
candidate that is neither an integer nor a float fails with a type-mismatch
error naming the expected type. -/
theorem c3_amended (p : Preference) (q : ℚ) (v : Value) (store : Store)
    (hT : p.ValueType = PreferenceValueTypeInteger) :
    (q.den ≠ 1 →
      IsValidValue p (Value.vFloat q) =
        some (ApiError.typeMismatch PreferenceValueTypeInteger)) ∧
    (q.den = 1 → p.IsDescreteValues = false →
      IsValidValue p (Value.vFloat q) =
        (if q.num < p.Range.Min ∨ q.num > p.Range.Max then
          some (ApiError.rangeError p.Range.Min p.Range.Max)
        else none)) ∧
    (q.den = 1 → p.IsDescreteValues = true →
      ∀ allowed, p.AllowedValues = some allowed →
      IsValidValue p (Value.vFloat q) =
        (if checkIfInAllowedValues (Value.vFloat q) p then none
         else some (ApiError.domainError allowed))) ∧
    ((∀ n, v ≠ Value.vInt n) → (∀ r, v ≠ Value.vFloat r) →
      IsValidValue p v =
        some (ApiError.typeMismatch PreferenceValueTypeInteger)) ∧
    (IsEnabledForScope p OrgAllowedScope = true →
      IsValidValue p (Value.vFloat q) = none →
      (UpdateOrgPreference [p] store p.Key (Value.vFloat q)).1 =
        Except.ok ⟨p.Key, Value.vFloat q⟩) := by
  refine ⟨?_, ?_, ?_, ?_, ?_⟩
  · intro hd
    simp [IsValidValue, typeCheck, coerceInt_vFloat, hT, hd,
      ErrorValueTypeMismatch]
  · intro hd hD
    simp [IsValidValue, typeCheck, coerceInt_vFloat, hT, hd, hD]
    by_cases hr : q.num < p.Range.Min ∨ q.num > p.Range.Max <;> simp [hr, hD]
  · intro hd hD allowed hA
    simp [IsValidValue, typeCheck, coerceInt_vFloat, hT, hd, hD, hA]
  · intro hi hf
    match v with
    | Value.vInt n => exact absurd rfl (hi n)
    | Value.vFloat r => exact absurd rfl (hf r)
    | Value.vString s =>
      simp [IsValidValue, typeCheck, hT, coerceInt, ErrorValueTypeMismatch]
    | Value.vBool b =>
      simp [IsValidValue, typeCheck, hT, coerceInt, ErrorValueTypeMismatch]
  · intro hO hval
    unfold UpdateOrgPreference
    simp [findPreference, List.find?, hO, hval]

/-- Witness for C3 amended: `rangePref` accepts the integral float `40.0`
(range check on the coerced integer) and the update stores the original
float. -/
theorem c3_amended_witness :
    IsValidValue rangePref (Value.vFloat 40) =
        (if (40 : ℚ).num < rangePref.Range.Min ∨
            (40 : ℚ).num > rangePref.Range.Max then
          some (ApiError.rangeError rangePref.Range.Min rangePref.Range.Max)
        else none) ∧
      (UpdateOrgPreference [rangePref] emptyStore rangePref.Key
          (Value.vFloat 40)).1 =
        Except.ok ⟨rangePref.Key, Value.vFloat 40⟩ :=
  ⟨(c3_amended rangePref 40 (Value.vInt 0) emptyStore (by decide)).2.1
      (by decide) (by decide),
   (c3_amended rangePref 40 (Value.vInt 0) emptyStore (by decide)).2.2.2.2
      (by decide) (by decide)⟩

/-- C4: for an integer-typed preference without discrete values, a candidate
that coerces to the integer `n` is accepted exactly when
`Range.Min ≤ n ≤ Range.Max`; outside the range, validation fails with a range
error reporting min and max, and neither set operation touches its store. -/
theorem c4_integer_range (p : Preference) (v : Value) (n : Int)
    (orgStore userStore : Store)
    (hT : p.ValueType = PreferenceValueTypeInteger)
    (hD : p.IsDescreteValues = false)
    (hC : coerceInt v = some n) :
    (IsValidValue p v = none ↔ (p.Range.Min ≤ n ∧ n ≤ p.Range.Max)) ∧
    (¬ (p.Range.Min ≤ n ∧ n ≤ p.Range.Max) →
      IsValidValue p v = some (ApiError.rangeError p.Range.Min p.Range.Max) ∧
      (UpdateOrgPreference [p] orgStore p.Key v).2 = orgStore ∧
      (UpdateUserPreference [p] userStore p.Key v).2 = userStore) := by
  have hval : IsValidValue p v =
      (if n < p.Range.Min ∨ n > p.Range.Max then
        some (ApiError.rangeError p.Range.Min p.Range.Max)
      else none) := by
    simp [IsValidValue, typeCheck, hT, hD, hC]
    by_cases hr : n < p.Range.Min ∨ n > p.Range.Max <;> simp [hr, hD]
  constructor
  · rw [hval]
    by_cases hr : n < p.Range.Min ∨ n > p.Range.Max
    · rw [if_pos hr]
      constructor
      · intro h
        exact absurd h (Option.some_ne_none _)
      · intro h
        exact absurd hr (by omega)
    · rw [if_neg hr]
      constructor
      · intro _
        omega
      · intro _
        rfl
  · intro hout
    have hr : n < p.Range.Min ∨ n > p.Range.Max := by omega
    have herr : IsValidValue p v =
        some (ApiError.rangeError p.Range.Min p.Range.Max) := by
      rw [hval, if_pos hr]
    refine ⟨herr, ?_, ?_⟩
    · unfold UpdateOrgPreference
      simp only [findPreference, List.find?, decide_True, decide_eq_true_eq]
      by_cases hO : IsEnabledForScope p OrgAllowedScope <;> simp [hO, herr]
    · unfold UpdateUserPreference
      simp only [findPreference, List.find?, decide_True, decide_eq_true_eq]
      by_cases hU : IsEnabledForScope p UserAllowedScope <;> simp [hU, herr]

/-- Witness for C4: `150` is outside the range `1..100` of `rangePref`, is
rejected with the reported bounds, and both stores stay untouched. -/
theorem c4_integer_range_witness :
    IsValidValue rangePref (Value.vInt 150) =
        some (ApiError.rangeError rangePref.Range.Min rangePref.Range.Max) ∧
      (UpdateOrgPreference [rangePref] emptyStore rangePref.Key
          (Value.vInt 150)).2 = emptyStore ∧
      (UpdateUserPreference [rangePref] emptyStore rangePref.Key
          (Value.vInt 150)).2 = emptyStore :=
  (c4_integer_range rangePref (Value.vInt 150) 150 emptyStore emptyStore
    (by decide) (by decide) (by decide)).2 (by decide)

/-- C5 counterexample: for a discrete-valued preference with a present but
empty allowed list (a non-nil empty Go slice), the claim says no domain check
is applied, yet `IsValidValue` rejects every well-typed candidate with a
domain error listing the empty set. -/
theorem c5_counterexample :
    IsValidValue emptyAllowedPref (Value.vString "dark") =
      some (ApiError.domainError []) := by
  decide

/-- C5 amended: the discrete domain check runs exactly when
`IsDescreteValues` is true and `AllowedValues` is non-nil (present).  With a
present allowed list — empty or not — a candidate that passed the type stage
is accepted iff it equals a member of the list by interface equality, and is
otherwise rejected with a domain error listing the allowed set; with a nil
(absent) list no domain check is applied. -/
theorem c5_amended (p : Preference) (v : Value)
    (hD : p.IsDescreteValues = true)
    (hT : typeCheck p v = none) :
    (∀ allowed, p.AllowedValues = some allowed →
      IsValidValue p v =
        (if checkIfInAllowedValues v p then none
         else some (ApiError.domainError allowed)) ∧
      (checkIfInAllowedValues v p = true ↔ v ∈ allowed)) ∧
    (p.AllowedValues = none → IsValidValue p v = none) := by
  constructor
  · intro allowed hA
    constructor
    · simp [IsValidValue, hT, hD, hA]
    · simp [checkIfInAllowedValues, hA, List.any_eq_true]
  · intro hA
    simp [IsValidValue, hT, hD, hA]

/-- Witness for C5 amended: `discreteStringPref` accepts a listed value and
rejects an unlisted one with the allowed set in the error. -/
theorem c5_amended_witness :
    (IsValidValue discreteStringPref (Value.vString "wide") =
        (if checkIfInAllowedValues (Value.vString "wide") discreteStringPref
         then none
         else some (ApiError.domainError
           [Value.vString "wide", Value.vString "narrow"]))) ∧
      (checkIfInAllowedValues (Value.vString "wide") discreteStringPref = true ↔
        Value.vString "wide" ∈ [Value.vString "wide", Value.vString "narrow"]) :=
  (c5_amended discreteStringPref (Value.vString "wide") (by decide)
    (by decide)).1 [Value.vString "wide", Value.vString "narrow"] (by decide)

/-- C6: for a string-, float-, or boolean-typed preference with discrete
values off, no domain or range check is applied: every candidate of the
matching runtime type passes validation. -/
theorem c6_no_domain_check (p : Preference)
    (hD : p.IsDescreteValues = false) :
    (p.ValueType = PreferenceValueTypeString →
      ∀ s, IsValidValue p (Value.vString s) = none) ∧
    (p.ValueType = PreferenceValueTypeFloat →
      ∀ q, IsValidValue p (Value.vFloat q) = none) ∧
    (p.ValueType = PreferenceValueTypeBoolean →
      ∀ b, IsValidValue p (Value.vBool b) = none) := by
  have h1 : ¬ (PreferenceValueTypeString = PreferenceValueTypeInteger) := by
    decide
  have h2 : ¬ (PreferenceValueTypeFloat = PreferenceValueTypeInteger) := by
    decide
  have h3 : ¬ (PreferenceValueTypeFloat = PreferenceValueTypeString) := by
    decide
  have h4 : ¬ (PreferenceValueTypeBoolean = PreferenceValueTypeInteger) := by
    decide
  have h5 : ¬ (PreferenceValueTypeBoolean = PreferenceValueTypeString) := by
    decide
  have h6 : ¬ (PreferenceValueTypeBoolean = PreferenceValueTypeFloat) := by
    decide
  refine ⟨?_, ?_, ?_⟩ <;> intro hT <;> intro x <;>
    simp [IsValidValue, typeCheck, hT, hD, h1, h2, h3, h4, h5, h6]

/-- Witness for C6: the float preference accepts an arbitrary float with no
range check applied. -/
theorem c6_no_domain_check_witness :
    IsValidValue floatPref (Value.vFloat 12345) = none :=
  (c6_no_domain_check floatPref (by decide)).2.1 (by decide) 12345

/-- C7: when a preference is not enabled at the requested scope, the set
operation at that scope fails with a forbidden error and returns its store
unchanged. -/
theorem c7_forbidden_no_write (defs : List Preference) (p : Preference)
    (v : Value) (orgStore userStore : Store)
    (hFind : findPreference defs p.Key = some p) :
    (IsEnabledForScope p UserAllowedScope = false →
      UpdateUserPreference defs userStore p.Key v =
        (Except.error (ApiError.forbidden UserAllowedScope p.Key), userStore)) ∧
    (IsEnabledForScope p OrgAllowedScope = false →
      UpdateOrgPreference defs orgStore p.Key v =
        (Except.error (ApiError.forbidden OrgAllowedScope p.Key), orgStore)) := by
  constructor
  · intro hU
    unfold UpdateUserPreference
    rw [hFind]
    simp [hU]
  · intro hO
    unfold UpdateOrgPreference
    rw [hFind]
    simp [hO]

/-- Witness for C7: `boolOrgPref` is org-only, so a user-scope set is
forbidden and writes nothing. -/
theorem c7_forbidden_no_write_witness :
    UpdateUserPreference [boolOrgPref] emptyStore boolOrgPref.Key
        (Value.vBool true) =
      (Except.error (ApiError.forbidden UserAllowedScope boolOrgPref.Key),
        emptyStore) :=
  (c7_forbidden_no_write [boolOrgPref] boolOrgPref (Value.vBool true)
    emptyStore emptyStore (by decide)).1 (by decide)

/-- C8 counterexample: the org bulk listing does not always agree with the
single-key getter.  For a boolean org preference with default `true` and no
stored row, `GetAllOrgPreferences` sanitizes the default into `false`, while
`GetOrgPreference` returns the raw default `true`. -/
theorem c8_counterexample :
    (GetAllOrgPreferences [boolOrgPref] emptyStore).map AllPreferences.Value =
        [Value.vBool false] ∧
      GetOrgPreference [boolOrgPref] emptyStore "ORG_ONBOARD" =
        Except.ok ⟨"ORG_ONBOARD", Value.vBool true⟩ :=
  ⟨rfl, rfl⟩

/-- C8 amended: each bulk listing emits exactly one view row per definition
enabled at the requested scope and omits the others entirely.  For user scope
the row's value equals what `GetUserPreference` returns from the same stored
rows.  For org scope the row's value is the sanitized stored-or-default
value; it equals what `GetOrgPreference` returns whenever a stored row
exists, but when no row exists the bulk row carries the sanitized default
while `GetOrgPreference` returns the raw default. -/
theorem c8_amended (defs : List Preference) (orgStore userStore : Store)
    (hN : (defs.map Preference.Key).Nodup) :
    ((GetAllUserPreferences defs orgStore userStore).length =
      (defs.filter (fun p => IsEnabledForScope p UserAllowedScope)).length) ∧
    (∀ p ∈ defs, IsEnabledForScope p UserAllowedScope = true →
      userView orgStore userStore p ∈
          GetAllUserPreferences defs orgStore userStore ∧
        GetUserPreference defs orgStore userStore p.Key =
          Except.ok ⟨p.Key, (userView orgStore userStore p).Value⟩) ∧
    (∀ row ∈ GetAllUserPreferences defs orgStore userStore,
      ∃ p ∈ defs, IsEnabledForScope p UserAllowedScope = true ∧
        row = userView orgStore userStore p) ∧
    ((GetAllOrgPreferences defs orgStore).length =
      (defs.filter (fun p => IsEnabledForScope p OrgAllowedScope)).length) ∧
    (∀ p ∈ defs, IsEnabledForScope p OrgAllowedScope = true →
      orgView orgStore p ∈ GetAllOrgPreferences defs orgStore ∧
        (orgView orgStore p).Value =
          SanitizeValue p ((orgStore p.Key).getD p.DefaultValue) ∧
        (∀ w, orgStore p.Key = some w →
          GetOrgPreference defs orgStore p.Key =
            Except.ok ⟨p.Key, (orgView orgStore p).Value⟩) ∧
        (orgStore p.Key = none →
          GetOrgPreference defs orgStore p.Key =
            Except.ok ⟨p.Key, p.DefaultValue⟩)) ∧
    (∀ row ∈ GetAllOrgPreferences defs orgStore,
      ∃ p ∈ defs, IsEnabledForScope p OrgAllowedScope = true ∧
        row = orgView orgStore p) := by
  refine ⟨?_, ?_, ?_, ?_, ?_, ?_⟩
  · simp [GetAllUserPreferences]
  · intro p hp he
    have hFind := findPreference_self defs p hN hp
    constructor
    · exact List.mem_map_of_mem _ (List.mem_filter.mpr ⟨hp, he⟩)
    · unfold GetUserPreference
      rw [hFind]
      simp only [he, if_true, userView]
  · intro row hrow
    rcases List.mem_map.mp hrow with ⟨p, hpf, hview⟩
    rcases List.mem_filter.mp hpf with ⟨hpd, hpe⟩
    exact ⟨p, hpd, hpe, hview.symm⟩
  · simp [GetAllOrgPreferences]
  · intro p hp he
    have hFind := findPreference_self defs p hN hp
    refine ⟨List.mem_map_of_mem _ (List.mem_filter.mpr ⟨hp, he⟩), ?_, ?_, ?_⟩
    · simp only [orgView]
      cases orgStore p.Key <;> rfl
    · intro w hw
      unfold GetOrgPreference
      rw [hFind]
      simp [he, hw, orgView]
    · intro hnone
      unfold GetOrgPreference
      rw [hFind]
      simp [he, hnone]
  · intro row hrow
    rcases List.mem_map.mp hrow with ⟨p, hpf, hview⟩
    rcases List.mem_filter.mp hpf with ⟨hpd, hpe⟩
    exact ⟨p, hpd, hpe, hview.symm⟩

/-- Witness for C8 amended on a two-definition registry: the user bulk
listing emits one row per user-enabled definition. -/
theorem c8_amended_witness :
    (GetAllUserPreferences [rangePref, boolOrgPref] emptyStore
        emptyStore).length =
      (([rangePref, boolOrgPref]).filter
        (fun p => IsEnabledForScope p UserAllowedScope)).length :=
  (c8_amended [rangePref, boolOrgPref] emptyStore emptyStore (by decide)).1

/-- C9 counterexample: `SanitizeValue` is not idempotent for boolean-typed
preferences.  Sanitizing the stored string "1" yields `true`, but sanitizing
that result again yields `false` (the boolean `true` is not the string "1"). -/
theorem c9_counterexample :
    SanitizeValue boolUserPref
        (SanitizeValue boolUserPref (Value.vString "1")) = Value.vBool false ∧
      SanitizeValue boolUserPref (Value.vString "1") = Value.vBool true :=
  ⟨rfl, rfl⟩

/-- C9 amended: for boolean-typed preferences `SanitizeValue` maps the string
"1" to `true` and every other value to `false`; sanitizing twice always
yields `false`, so Sanitize is idempotent exactly on the values other than
the string "1".  Values of non-boolean-typed preferences pass through
unchanged. -/
theorem c9_amended (p : Preference) (v : Value) :
    (p.ValueType = PreferenceValueTypeBoolean →
      SanitizeValue p v =
          (if v = Value.vString "1" then Value.vBool true
           else Value.vBool false) ∧
        SanitizeValue p (SanitizeValue p v) = Value.vBool false ∧
        (SanitizeValue p (SanitizeValue p v) = SanitizeValue p v ↔
          v ≠ Value.vString "1")) ∧
    (p.ValueType ≠ PreferenceValueTypeBoolean → SanitizeValue p v = v) := by
  constructor
  · intro hB
    refine ⟨by simp [SanitizeValue, hB], ?_, ?_⟩
    · by_cases hv : v = Value.vString "1" <;> simp [SanitizeValue, hB, hv]
    · by_cases hv : v = Value.vString "1" <;> simp [SanitizeValue, hB, hv]
  · intro hB
    simp [SanitizeValue, hB]

/-- Witness for C9 amended at the stored representation "1". -/
theorem c9_amended_witness :
    SanitizeValue boolOrgPref (Value.vString "1") =
        (if Value.vString "1" = Value.vString "1" then Value.vBool true
         else Value.vBool false) ∧
      SanitizeValue boolOrgPref
          (SanitizeValue boolOrgPref (Value.vString "1")) = Value.vBool false ∧
      (SanitizeValue boolOrgPref
            (SanitizeValue boolOrgPref (Value.vString "1")) =
          SanitizeValue boolOrgPref (Value.vString "1") ↔
        Value.vString "1" ≠ Value.vString "1") :=
  (c9_amended boolOrgPref (Value.vString "1")).1 (by decide)

/-- C10: for a preference whose value type is none of integer, float, string
or boolean, the type switch has no matching case, so no type check is
performed: every candidate passes the type stage and only the discrete
allowed-values check applies; with discrete values off, every candidate is
accepted. -/
theorem c10_unknown_type (p : Preference) (v : Value)
    (h1 : p.ValueType ≠ PreferenceValueTypeInteger)
    (h2 : p.ValueType ≠ PreferenceValueTypeFloat)
    (h3 : p.ValueType ≠ PreferenceValueTypeString)
    (h4 : p.ValueType ≠ PreferenceValueTypeBoolean) :
    typeCheck p v = none ∧
    IsValidValue p v =
      (if p.IsDescreteValues then
        (match p.AllowedValues with
         | some allowed =>
            if checkIfInAllowedValues v p then none
            else some (ApiError.domainError allowed)
         | none => none)
       else none) ∧
    (p.IsDescreteValues = false → IsValidValue p v = none) := by
  have ht : typeCheck p v = none := by
    simp [typeCheck, h1, h2, h3, h4]
  refine ⟨ht, ?_, ?_⟩
  · simp [IsValidValue, ht]
  · intro hD
    simp [IsValidValue, ht, hD]

/-- Witness for C10 at a preference of value type "json". -/
theorem c10_unknown_type_witness :
    typeCheck unknownTypePref (Value.vBool true) = none ∧
      IsValidValue unknownTypePref (Value.vBool true) = none :=
  ⟨(c10_unknown_type unknownTypePref (Value.vBool true) (by decide) (by decide)
      (by decide) (by decide)).1,
   (c10_unknown_type unknownTypePref (Value.vBool true) (by decide) (by decide)
      (by decide) (by decide)).2.2 (by decide)⟩

end Preferences
